import Mathlib

/-!
Verification of the Daily-News gateway core.

A shallow embedding, in Lean 4, of the credential-pool, proxy-pool,
request-executor and stream-translator components of the gateway
(`app/services/grok/token.py`, `app/core/proxy_pool.py`,
`app/services/grok/client.py`, `app/services/grok/processer.py`),
together with proofs of the specified properties.

Conventions of the embedding:
* Python dicts that are iterated in insertion order are modelled as
  association lists (`List (String × _)`), preserving iteration order.
* Machine integers are `Int`/`Nat`; clock readings are integers
  (milliseconds); the `0.1 s` / `0.5 s` delays of the retry policy are
  therefore the naturals `100` / `500`.
* External I/O collaborators (media cache, proxy fetch, upstream
  transport) appear as explicit oracle parameters, and stateful code is
  written as explicit state passing.
-/

namespace DailyNews

/-! Section: Credential records (`GrokTokenManager`, token.py)

One credential record, with the exact fields created by
`GrokTokenManager.add_token`.  `status` is the free-form string of the
source ("active" / "expired"); quota fields use the source's encoding
(-1 unknown, 0 exhausted, > 0 known remaining). -/

structure TokenRec where
  createdTime : Int
  remainingQueries : Int
  heavyremainingQueries : Int
  status : String
  failedCount : Nat
  lastFailureTime : Option Int
  lastFailureReason : Option String
  tags : List String
  note : String
deriving Repr, DecidableEq

/-- The two partitions of the durable store (`TokenType.NORMAL` /
`TokenType.SUPER`), each an insertion-ordered map from secret to
record. -/
structure TokenPool where
  normal : List (String × TokenRec)
  superT : List (String × TokenRec)
deriving Repr, DecidableEq

/-- Source `MAX_FAILURES` constant of token.py. -/
def MAX_FAILURES : Nat := 3

/-- Source `STATSIG_INVALID` constant of token.py. -/
def STATSIG_INVALID : Int := 403

/-- Source `int(data.get(field, -1))`: field access by name used inside
`select_token` (the two call sites pass `"remainingQueries"` and
`"heavyremainingQueries"`). -/
def getField (field : String) (r : TokenRec) : Int :=
  if field = "heavyremainingQueries" then r.heavyremainingQueries
  else if field = "remainingQueries" then r.remainingQueries
  else -1

/-- The candidate-collection loop of `select_token.select_best`:
walks the partition in iteration order, skipping `status == "expired"`,
`failedCount >= MAX_FAILURES` and `remaining == 0`; a remaining of `-1`
goes to the `unused` list, a positive remaining to the `used` list
(anything else is silently dropped, as in the source). -/
def collectCands (field : String) : List (String × TokenRec) → List String × List (String × Int)
  | [] => ([], [])
  | (k, r) :: rest =>
    let acc := collectCands field rest
    if r.status = "expired" then acc
    else if MAX_FAILURES ≤ r.failedCount then acc
    else
      let remaining := getField field r
      if remaining = 0 then acc
      else if remaining = -1 then (k :: acc.1, acc.2)
      else if 0 < remaining then (acc.1, (k, remaining) :: acc.2)
      else acc

/-- Source `used.sort(key=lambda x: x[1], reverse=True)` followed by taking
`used[0]`:  Python's sort is stable, so the head of the sorted list is
the first element (in iteration order) carrying the maximal remaining
quota.  `pickMax` computes exactly that element. -/
def pickMax : List (String × Int) → Option (String × Int)
  | [] => none
  | (k, q) :: rest =>
    match pickMax rest with
    | none => some (k, q)
    | some (k2, q2) => if q < q2 then some (k2, q2) else some (k, q)

/-- Source `select_best(tokens, field)` of `GrokTokenManager.select_token`:
any unused candidate first (iteration order), else the metered
candidate with greatest remaining quota. -/
def select_best (tokens : List (String × TokenRec)) (field : String) :
    Option (String × Int) :=
  let acc := collectCands field tokens
  match acc.1 with
  | k :: _ => some (k, -1)
  | [] => pickMax acc.2

/-- Source `GrokTokenManager.select_token(model)`: heavy-tier requests draw
from the premium (`SUPER`) partition with the heavy quota field;
everything else from the standard (`NORMAL`) partition with fallback to
premium; exhaustion raises `NO_AVAILABLE_TOKEN`. -/
def select_token (pool : TokenPool) (model : String) : Except String String :=
  if model = "grok-4-heavy" then
    match select_best pool.superT "heavyremainingQueries" with
    | some (k, _) => .ok k
    | none => .error "NO_AVAILABLE_TOKEN"
  else
    match select_best pool.normal "remainingQueries" with
    | some (k, _) => .ok k
    | none =>
      match select_best pool.superT "remainingQueries" with
      | some (k, _) => .ok k
      | none => .error "NO_AVAILABLE_TOKEN"

/-! Section: Specification-side selection (§4.1 `acquire`)

The following definitions follow the *spec's words*, to be compared
with `select_token` above: "exclude any credential with status=expired
or failureCount≥3 … Partition candidates into unused (quota==-1) and
metered (quota>0) … any unused candidate, chosen by iteration order;
else the metered candidate with strictly greatest remaining quota, ties
broken by iteration order." -/

/-- Not excluded: status not expired and failureCount below the
threshold. -/
def candOK (r : TokenRec) : Bool :=
  decide (¬ r.status = "expired" ∧ r.failedCount < 3)

/-- The *unused* partition of the candidates (quota == -1), in
iteration order. -/
def unusedOf (field : String) (toks : List (String × TokenRec)) :
    List (String × TokenRec) :=
  toks.filter (fun p => candOK p.2 && decide (getField field p.2 = -1))

/-- The *metered* partition of the candidates (quota > 0), in iteration
order. -/
def meteredOf (field : String) (toks : List (String × TokenRec)) :
    List (String × TokenRec) :=
  toks.filter (fun p => candOK p.2 && decide (0 < getField field p.2))

/-- Greatest quota value among a list of (key, quota) pairs. -/
def maxQuota : List Int → Option Int
  | [] => none
  | q :: qs =>
    match maxQuota qs with
    | none => some q
    | some m => some (max q m)

/-- Spec-side best choice: any unused candidate by iteration order,
else the metered candidate of strictly greatest quota, ties broken by
iteration order (the *first* candidate attaining the maximum). -/
def specSelectBest (toks : List (String × TokenRec)) (field : String) :
    Option String :=
  match unusedOf field toks with
  | p :: _ => some p.1
  | [] =>
    let metered := (meteredOf field toks).map (fun p => (p.1, getField field p.2))
    match maxQuota (metered.map (fun p => p.2)) with
    | none => none
    | some m => (metered.find? (fun p => p.2 == m)).map (fun p => p.1)

/-- Spec-side `acquire(tier)` on a pool snapshot: heavy tier draws only
from premium; standard tier falls back to premium; otherwise the
no-available-credential error. -/
def acquire (pool : TokenPool) (model : String) : Except String String :=
  if model = "grok-4-heavy" then
    match specSelectBest pool.superT "heavyremainingQueries" with
    | some k => .ok k
    | none => .error "NO_AVAILABLE_TOKEN"
  else
    match specSelectBest pool.normal "remainingQueries" with
    | some k => .ok k
    | none =>
      match specSelectBest pool.superT "remainingQueries" with
      | some k => .ok k
      | none => .error "NO_AVAILABLE_TOKEN"

/-! Section: Token lifecycle operations (token.py) -/

/-- The two partitions (`TokenType` of grok_models; the enum values
name the standard and premium partitions). -/
inductive TokenType
  | normal
  | superT
deriving DecidableEq, Repr

def getPart (pool : TokenPool) : TokenType → List (String × TokenRec)
  | .normal => pool.normal
  | .superT => pool.superT

def setPart (pool : TokenPool) : TokenType → List (String × TokenRec) → TokenPool
  | .normal, l => { pool with normal := l }
  | .superT, l => { pool with superT := l }

/-- Python whitespace for `str.strip()` (space, tab, newline, carriage
return, vertical tab, form feed). -/
def isPySpace (c : Char) : Bool :=
  c == ' ' || c == '\t' || c == '\n' || c == '\r' ||
    c == Char.ofNat 11 || c == Char.ofNat 12

/-- Source `str.strip()` on a character list. -/
def pyStripL (l : List Char) : List Char :=
  ((l.dropWhile isPySpace).reverse.dropWhile isPySpace).reverse

/-- Source `str.strip()`. -/
def pyStrip (s : String) : String := String.mk (pyStripL s.data)

/-- The fresh record written by `add_token` for each accepted secret
(exact field values of the source dict literal). -/
def defaultRecord (now : Int) : TokenRec :=
  { createdTime := now
    remainingQueries := -1
    heavyremainingQueries := -1
    status := "active"
    failedCount := 0
    lastFailureTime := none
    lastFailureReason := none
    tags := []
    note := "" }

/-- Python dict assignment `d[k] = v`: overwrite in place when the key
exists (keeping its position), else append. -/
def setKey : List (String × TokenRec) → String → TokenRec → List (String × TokenRec)
  | [], k, v => [(k, v)]
  | (k1, v1) :: rest, k, v =>
    if k1 = k then (k, v) :: rest else (k1, v1) :: setKey rest k v

/-- Python dict lookup (first binding of the key). -/
def lookupKey : List (String × TokenRec) → String → Option TokenRec
  | [], _ => none
  | (k1, v) :: rest, k => if k1 = k then some v else lookupKey rest k

/-- Update the (first) binding of a key in place. -/
def updateKey : List (String × TokenRec) → String → (TokenRec → TokenRec) → List (String × TokenRec)
  | [], _, _ => []
  | (k1, v) :: rest, k, f =>
    if k1 = k then (k1, f v) :: rest else (k1, v) :: updateKey rest k f

/-- Source `GrokTokenManager.add_token(tokens, token_type)`: for each token,
skip it when it is empty or whitespace-only (`not token or not
token.strip()`), otherwise overwrite the partition entry with a fresh
default record. -/
def add_token (pool : TokenPool) (tokens : List String) (tt : TokenType)
    (now : Int) : TokenPool :=
  tokens.foldl
    (fun pl tok =>
      if tok = "" ∨ pyStrip tok = "" then pl
      else setPart pl tt (setKey (getPart pl tt) tok (defaultRecord now)))
    pool

/-- Source `GrokTokenManager._extract_sso`: the text between `"sso="` and the
following `";"`, or `none` when `"sso="` does not occur. -/
def extract_sso (auth : String) : Option String :=
  if 2 ≤ (auth.splitOn "sso=").length then
    some ((((auth.splitOn "sso=").getD 1 "").splitOn ";").headD "")
  else none

/-- Source `GrokTokenManager._find_token`: search the NORMAL partition first,
then SUPER. -/
def find_token (pool : TokenPool) (sso : String) : Option (TokenType × TokenRec) :=
  match lookupKey pool.normal sso with
  | some r => some (.normal, r)
  | none =>
    match lookupKey pool.superT sso with
    | some r => some (.superT, r)
    | none => none

/-- The mutation block of `record_failure` (lines 450-461 of token.py):
increment `failedCount`, stamp `lastFailureTime`/`lastFailureReason`,
and mark the record `expired` once the threshold is met with a status
in [400, 500). -/
def applyFailure (r : TokenRec) (status : Int) (msg : String) (now : Int) : TokenRec :=
  let r1 : TokenRec :=
    { r with failedCount := r.failedCount + 1
             lastFailureTime := some now
             lastFailureReason := some (toString status ++ ": " ++ msg) }
  if 400 ≤ status ∧ status < 500 ∧ MAX_FAILURES ≤ r1.failedCount then
    { r1 with status := "expired" }
  else r1

/-- Per-record semantics of `record_failure` for the record the call
targets: a 403 (`STATSIG_INVALID`) returns before touching anything,
every other status applies the mutation block. -/
def record_failure_step (r : TokenRec) (status : Int) (msg : String) (now : Int) : TokenRec :=
  if status = STATSIG_INVALID then r else applyFailure r status msg now

/-- Source `GrokTokenManager.record_failure(auth_token, status, msg)` on the
whole pool: early return on 403, otherwise extract the sso, find its
record (NORMAL first) and apply the mutation block to it. -/
def record_failure (pool : TokenPool) (auth : String) (status : Int)
    (msg : String) (now : Int) : TokenPool :=
  if status = STATSIG_INVALID then pool
  else
    match extract_sso auth with
    | none => pool
    | some sso =>
      match find_token pool sso with
      | none => pool
      | some (tt, _) =>
        setPart pool tt
          (updateKey (getPart pool tt) sso (fun r => applyFailure r status msg now))

/-- Per-record semantics of `reset_failure` (record a success): reset
the failure count and clear the failure metadata, but only when
`failedCount > 0`. -/
def reset_failure_step (r : TokenRec) : TokenRec :=
  if 0 < r.failedCount then
    { r with failedCount := 0
             lastFailureTime := none
             lastFailureReason := none }
  else r

/-- Source `GrokTokenManager.reset_failure(auth_token)` on the whole pool. -/
def reset_failure (pool : TokenPool) (auth : String) : TokenPool :=
  match extract_sso auth with
  | none => pool
  | some sso =>
    match find_token pool sso with
    | none => pool
    | some (tt, _) =>
      setPart pool tt (updateKey (getPart pool tt) sso reset_failure_step)

/-- A record two failures in, and a pool whose only credential is
expired: concrete inputs for the C2 witness. -/
def c2Rec : TokenRec :=
  { defaultRecord 0 with failedCount := 2 }

def c2ExpRec : TokenRec :=
  { defaultRecord 0 with status := "expired", remainingQueries := 50 }

def c2Pool : TokenPool := { normal := [("a", c2ExpRec)], superT := [] }

/-! Section: C8: success recording -/

/-- A record with stale failure metadata but `failedCount == 0` (such a
state can enter the pool through the durable store, which `_load_data`
accepts verbatim). -/
def staleRec : TokenRec :=
  { defaultRecord 0 with lastFailureTime := some 5, lastFailureReason := some "401: boom" }

/-- A record three failures in, for the C8 witness. -/
def failedThriceRec : TokenRec :=
  { defaultRecord 0 with
      failedCount := 3
      lastFailureTime := some 9
      lastFailureReason := some "429: x" }

/-- An expired record sitting under the whitespace-only secret `" "`. -/
def blankKeyRec : TokenRec :=
  { defaultRecord 1 with
      status := "expired"
      failedCount := 3
      remainingQueries := 4
      lastFailureTime := some 9
      lastFailureReason := some "429: x" }

def blankKeyPool : TokenPool := { normal := [(" ", blankKeyRec)], superT := [] }

/-! Section: ProxyPool (app/core/proxy_pool.py)

Proxy addresses are modelled as character lists, so that Python's
`str.strip`, `startswith` and prefix-guarded `replace(a, b, 1)` are
elementwise operations. -/

def sock5hPre : List Char := ['s','o','c','k','5','h',':','/','/']

def sock5Pre : List Char := ['s','o','c','k','5',':','/','/']

def socks5Pre : List Char := ['s','o','c','k','s','5',':','/','/']

def socks5hPre : List Char := ['s','o','c','k','s','5','h',':','/','/']

/-- Source `s.replace(pre, repl, 1)` under a `startswith(pre)` guard: replace
the prefix. -/
def replacePre (pre repl l : List Char) : List Char := repl ++ l.drop pre.length

/-- Third rewrite of `_normalize_proxy`: `socks5:// → socks5h://`. -/
def normStep3 (p : List Char) : List Char :=
  if socks5Pre.isPrefixOf p then replacePre socks5Pre socks5hPre p else p

/-- Second rewrite of `_normalize_proxy`: `sock5:// → socks5://`, then
the third rewrite. -/
def normStep2 (p : List Char) : List Char :=
  normStep3 (if sock5Pre.isPrefixOf p then replacePre sock5Pre socks5Pre p else p)

/-- First rewrite of `_normalize_proxy`: `sock5h:// → socks5h://`, then
the remaining rewrites. -/
def normStep1 (p : List Char) : List Char :=
  normStep2 (if sock5hPre.isPrefixOf p then replacePre sock5hPre socks5hPre p else p)

/-- Source `ProxyPool._normalize_proxy`: empty input returned as is; otherwise
strip, then apply the three sequential scheme rewrites. -/
def normalize_proxy (proxy : List Char) : List Char :=
  if proxy = [] then proxy else normStep1 (pyStripL proxy)

/-- Source `ProxyPool._looks_like_proxy_url`: scheme sniffing over the four
socks spellings. -/
def looks_like_proxy_url (url : List Char) : Bool :=
  sock5Pre.isPrefixOf url || sock5hPre.isPrefixOf url ||
    socks5Pre.isPrefixOf url || socks5hPre.isPrefixOf url

/-- The configuration produced by `ProxyPool.configure` (the fields the
method assigns on `self`). -/
structure ProxyPoolState where
  poolUrl : Option (List Char)
  staticProxy : Option (List Char)
  currentProxy : Option (List Char)
  fetchInterval : Int
  enabled : Bool
deriving Repr, DecidableEq

/-- A fresh `ProxyPool.__init__` state. -/
def proxyInit : ProxyPoolState :=
  { poolUrl := none
    staticProxy := none
    currentProxy := none
    fetchInterval := 300
    enabled := false }

/-- Python truthiness of an optional string. -/
def optTruthy : Option (List Char) → Bool
  | some l => !l.isEmpty
  | none => false

/-- Source `ProxyPool.configure(proxy_url, proxy_pool_url, proxy_pool_interval)`:
normalize the static proxy; strip the pool-source URL; when the
pool-source itself looks like a proxy literal, reject it as a pool
source (use it as the static proxy when none was given, else ignore
it); enable rotation only when a pool source survives. -/
def configure (st : ProxyPoolState) (proxy_url proxy_pool_url : List Char)
    (interval : Int) : ProxyPoolState :=
  let staticP : Option (List Char) :=
    if proxy_url ≠ [] then some (normalize_proxy proxy_url) else none
  let poolUrl0 : Option (List Char) :=
    if proxy_pool_url ≠ [] then some (pyStripL proxy_pool_url) else none
  let rejected : Bool :=
    match poolUrl0 with
    | some pu => !pu.isEmpty && looks_like_proxy_url pu
    | none => false
  let staticP2 : Option (List Char) :=
    if rejected then
      match poolUrl0 with
      | some pu => if optTruthy staticP then staticP else some (normalize_proxy pu)
      | none => staticP
    else staticP
  let poolUrl1 : Option (List Char) := if rejected then none else poolUrl0
  let enabled : Bool := optTruthy poolUrl1
  let current : Option (List Char) :=
    if enabled then st.currentProxy
    else if optTruthy staticP2 then staticP2 else st.currentProxy
  { poolUrl := poolUrl1
    staticProxy := staticP2
    currentProxy := current
    fetchInterval := interval
    enabled := enabled }

/-- Trailing-whitespace strip (the right half of `str.strip()`). -/
def stripTrail (l : List Char) : List Char :=
  (l.reverse.dropWhile isPySpace).reverse

/-! Section: Request executor (`GrokClient._request`, client.py)

One logical call is driven against a scripted list of upstream status
codes (the transport oracle).  The observable side effects — proxy
force-refreshes, sleeps, credential failure/success reports — are
collected as an event trace; delays are in milliseconds (0.5 s = 500,
`attempt × 0.1 s` = `attempt × 100`). -/

inductive Ev where
  | refresh
  | sleepMs (ms : Nat)
  | recordFail (status : Int)
  | resetFail
deriving DecidableEq, Repr

inductive InnerRes where
  | success (rest : List Int) (evs : List Ev)
  | failure (status : Int) (rest : List Int) (evs : List Ev)
  | outerRetry (rest : List Int) (evs : List Ev)
  | noData (evs : List Ev)
deriving DecidableEq, Repr

def addEvs (pre : List Ev) : InnerRes → InnerRes
  | .success r e => .success r (pre ++ e)
  | .failure s r e => .failure s r (pre ++ e)
  | .outerRetry r e => .outerRetry r (pre ++ e)
  | .noData e => .noData (pre ++ e)

def innerEvs : InnerRes → List Ev
  | .success _ e => e
  | .failure _ _ e => e
  | .outerRetry _ e => e
  | .noData e => e

/-- Source `MAX_OUTER_RETRY` of `_request`. -/
def MAX_OUTER_RETRY : Nat := 3

/-- Source `max_403_retries` of `_request`. -/
def MAX_403_RETRIES : Nat := 5

/-- The shared tail of a `_request` loop iteration after the 403 block:
retryable-status outer retry with linear backoff `(outer_retry+1) ×
0.1 s`, `_handle_error` (records a credential failure and raises) on
other non-200, fire-and-forget `reset_failure` then processing on
200. -/
def statusChecks (codes : List Int) (outerRetry : Nat) (s : Int)
    (rest : List Int) (evs : List Ev) : InnerRes :=
  if s ∈ codes then
    if outerRetry < MAX_OUTER_RETRY then
      .outerRetry rest (evs ++ [.sleepMs ((outerRetry + 1) * 100)])
    else .failure s rest (evs ++ [.recordFail s])
  else if s ≠ 200 then .failure s rest (evs ++ [.recordFail s])
  else .success rest (evs ++ [.resetFail])

/-- The inner `while retry_403_count <= max_403_retries` loop of
`_request` for one outer attempt.  Each iteration force-refreshes the
proxy when it is a 403 retry and the rotating pool is enabled, consumes
one upstream response; on `403 ∧ enabled` it sleeps 0.5 s and retries
while the counter stays within the cap, else falls through to the
status checks. -/
def innerLoop (codes : List Int) (enabled : Bool) (outerRetry : Nat) :
    Nat → List Int → InnerRes
  | _, [] => .noData []
  | count, s :: rest =>
    let evs0 : List Ev := if 0 < count ∧ enabled = true then [.refresh] else []
    if s = 403 ∧ enabled = true then
      if count + 1 ≤ MAX_403_RETRIES then
        addEvs (evs0 ++ [.sleepMs 500])
          (innerLoop codes enabled outerRetry (count + 1) rest)
      else statusChecks codes outerRetry s rest evs0
    else statusChecks codes outerRetry s rest evs0

inductive Outcome where
  | ok (rest : List Int)
  | err (status : Int) (rest : List Int)
  | outOfData
  | maxRetries (rest : List Int)
deriving DecidableEq, Repr

structure RunRes where
  evs : List Ev
  outcome : Outcome
deriving DecidableEq, Repr

/-- The outer `for outer_retry in range(MAX_OUTER_RETRY + 1)` loop of
`_request`; `fuel` is the number of remaining outer iterations, and its
exhaustion is the source's unreachable `MAX_RETRIES_EXCEEDED` raise. -/
def outerLoop (codes : List Int) (enabled : Bool) :
    Nat → Nat → List Int → RunRes
  | 0, _, responses => ⟨[], .maxRetries responses⟩
  | fuel + 1, outerRetry, responses =>
    match innerLoop codes enabled outerRetry 0 responses with
    | .success rest e => ⟨e, .ok rest⟩
    | .failure s rest e => ⟨e, .err s rest⟩
    | .noData e => ⟨e, .outOfData⟩
    | .outerRetry rest e =>
      let r := outerLoop codes enabled fuel (outerRetry + 1) rest
      ⟨e ++ r.evs, r.outcome⟩

/-- Source `GrokClient._request` over a scripted response list. -/
def grokRequest (codes : List Int) (enabled : Bool) (responses : List Int) : RunRes :=
  outerLoop codes enabled (MAX_OUTER_RETRY + 1) 0 responses

/-! Section: Stream translator (`GrokResponseProcessor.process_stream`,
processer.py)

The upstream body is a list of timed frames (arrival clock reading in
the event loop, here integral, and the decoded shape of the line); the
per-frame JSON fields the translator reads are the `GrokResp`
structure; media-cache collaborators are oracle functions in the
configuration.  The output is the list of emitted SSE items: content
deltas with an optional finish reason, and the final `data: [DONE]`
marker. -/

/-- Source `StreamTimeoutManager` state. -/
structure TimeoutState where
  chunkTimeout : Nat
  firstTimeout : Nat
  totalTimeout : Nat
  startTime : Nat
  lastChunkTime : Nat
  firstReceived : Bool
deriving Repr, DecidableEq

/-- Source `StreamTimeoutManager.check_timeout`. -/
def check_timeout (tm : TimeoutState) (now : Nat) : Bool × String :=
  if ¬ tm.firstReceived = true ∧ tm.firstTimeout < now - tm.startTime then
    (true, "First response timeout (" ++ toString tm.firstTimeout ++ "s)")
  else if 0 < tm.totalTimeout ∧ tm.totalTimeout < now - tm.startTime then
    (true, "Total timeout (" ++ toString tm.totalTimeout ++ "s)")
  else if tm.firstReceived = true ∧ tm.chunkTimeout < now - tm.lastChunkTime then
    (true, "Chunk timeout (" ++ toString tm.chunkTimeout ++ "s)")
  else (false, "")

/-- Source `StreamTimeoutManager.mark_received`. -/
def mark_received (tm : TimeoutState) (now : Nat) : TimeoutState :=
  { tm with lastChunkTime := now, firstReceived := true }

/-- One emitted SSE item: a delta chunk (`make_chunk(content, finish)`)
or the `data: [DONE]` end marker. -/
inductive OutItem where
  | chunk (content : String) (finish : Option String)
  | done
deriving Repr, DecidableEq

structure SearchResult where
  title : String
  url : String
  preview : String
deriving Repr, DecidableEq

structure VideoResp where
  progress : Int
  videoUrl : Option String
deriving Repr, DecidableEq

/-- The fields of one parsed `result.response` object that
`process_stream` reads. -/
structure GrokResp where
  userModel : Option String
  video : Option VideoResp
  imageAttachmentInfo : Bool
  modelImages : Option (List String)
  token : String
  tokenIsList : Bool
  isThinking : Bool
  messageTag : Option String
  toolUsageCardId : Bool
  webSearchResults : Option (List SearchResult)
deriving Repr, DecidableEq

/-- The decoded shape of one received line: empty line; malformed JSON
(decode error, skipped); valid JSON whose processing raises a
non-decode error (e.g. a top-level array — `data.get` raises, caught by
the per-frame handler); a vendor error envelope; a parse with an empty
`result.response`; or a payload. -/
inductive Frame where
  | empty
  | malformed
  | badObject
  | errorFrame (msg : String)
  | noResp
  | payload (r : GrokResp)
deriving Repr, DecidableEq

/-- How the upstream iterator ends once the scripted frames are
consumed: normal exhaustion, or an exception raised by the transport
iterator itself (caught by the outer handler). -/
inductive StreamEnd where
  | eof
  | raiseErr (msg : String)
deriving Repr, DecidableEq

/-- Result of a `download_base64` oracle call: a value, a falsy result,
or a raised exception. -/
inductive CacheRes where
  | val (s : String)
  | nofile
  | raise
deriving Repr, DecidableEq

/-- Hot-reloadable settings plus the external media-cache oracles. -/
structure ProcCfg where
  filteredTags : List String
  showThinking : Bool
  imageMode : String
  baseUrl : String
  imgBase64 : String → CacheRes
  imgFetch : String → Bool
  videoCache : String → Bool

/-- The local state of the `process_stream` loop. -/
structure StreamState where
  isImage : Bool
  isThinking : Bool
  thinkingFinished : Bool
  model : Option String
  videoProgressStarted : Bool
  lastVideoProgress : Int
  tm : TimeoutState
deriving Repr, DecidableEq

/-- Python `tag in token` (substring containment; the empty tag is
contained in everything). -/
def listContains (pat : List Char) : List Char → Bool
  | [] => pat.isEmpty
  | c :: cs => pat.isPrefixOf (c :: cs) || listContains pat cs

def strContains (token tag : String) : Bool := listContains tag.data token.data

/-- Source `img.replace('/', '-')`. -/
def slashToDash (s : String) : String :=
  s.map (fun c => if c = '/' then '-' else c)

/-- Source `f"{base_url}/images/{path}" if base_url else f"/images/{path}"`. -/
def imageLocalUrl (cfg : ProcCfg) (pathDash : String) : String :=
  if cfg.baseUrl ≠ "" then cfg.baseUrl ++ "/images/" ++ pathDash
  else "/images/" ++ pathDash

/-- Source `GrokResponseProcessor._build_video_content`: the emitted video
HTML — the locally cached URL when the cache succeeds, the vendor URL
otherwise.  (The video-affinity registration is a token-manager side
effect, not part of the emitted content.) -/
def build_video_content (cfg : ProcCfg) (videoUrl : String) : String :=
  if cfg.videoCache videoUrl then
    "<video src=\"" ++ imageLocalUrl cfg (slashToDash videoUrl)
      ++ "\" controls=\"controls\" width=\"500\" height=\"300\"></video>\n"
  else
    "<video src=\"https://assets.grok.com/" ++ videoUrl
      ++ "\" controls=\"controls\" width=\"500\" height=\"300\"></video>\n"

/-- Python `s.split(sep, 1)` yielding both halves when the separator
occurs. -/
def splitOnce (s sep : String) : Option (String × String) :=
  match s.splitOn sep with
  | [] => none
  | [_] => none
  | a :: others => some (a, String.intercalate sep others)

/-- Source `range(0, len(s), 8192)` slicing: split into 8 KiB pieces. -/
def chunkList (l : List Char) : List (List Char) :=
  if l = [] then []
  else l.take 8192 :: chunkList (l.drop 8192)
termination_by l.length
decreasing_by
  simp only [List.length_drop]
  cases l with
  | nil => simp_all
  | cons a t => simp; omega

def chunkStr (s : String) : List String := (chunkList s.data).map String.mk

/-- One image of the image-mode terminal branch: base64 mode emits
immediately (with 8 KiB slicing of a non-`data:`-headed value), URL
mode accumulates into `content`; any cache failure degrades to the
vendor asset URL. -/
def imageStep (cfg : ProcCfg) (content : String) (img : String) :
    String × List OutItem :=
  if cfg.imageMode = "base64" then
    match cfg.imgBase64 ("/" ++ img) with
    | .raise =>
      (content ++ "![Generated Image](https://assets.grok.com/" ++ img ++ ")\n", [])
    | .nofile =>
      (content,
       [.chunk ("![Generated Image](https://assets.grok.com/" ++ img ++ ")\n") none])
    | .val b64 =>
      if b64.startsWith "data:" then
        (content, [.chunk ("![Generated Image](" ++ b64 ++ ")\n") none])
      else
        match splitOnce b64 "," with
        | some (p0, p1) =>
          (content,
            .chunk ("![Generated Image](data:" ++ p0 ++ ",") none
              :: (chunkStr p1).map (fun piece => .chunk piece none)
              ++ [.chunk ")\n" none])
        | none => (content, [.chunk ("![Generated Image](" ++ b64 ++ ")\n") none])
  else
    if cfg.imgFetch ("/" ++ img) then
      (content ++ "![Generated Image](" ++ imageLocalUrl cfg (slashToDash img) ++ ")\n", [])
    else
      (content ++ "![Generated Image](https://assets.grok.com/" ++ img ++ ")\n", [])

def imageLoop (cfg : ProcCfg) : List String → String → String × List OutItem
  | [], content => (content, [])
  | img :: more, content =>
    let r1 := imageStep cfg content img
    let r2 := imageLoop cfg more r1.1
    (r2.1, r1.2 ++ r2.2)

/-- One formatted search-result link
(`\n- [{title}]({url} "{preview}")`, newlines stripped from the
preview). -/
def formatSearchResult (r : SearchResult) : String :=
  "\n- [" ++ r.title ++ "](" ++ r.url ++ " \""
    ++ (r.preview.replace "\n" "") ++ "\")"

def appendSearch (token : String) (results : List SearchResult) : String :=
  (results.foldl (fun t r => t ++ formatSearchResult r) token) ++ "\n"

/-- The `toolUsageCardId` block: `none` means the frame is skipped
(`continue`), `some tok` means processing proceeds with the (possibly
search-augmented) token. -/
def searchAdjust (cfg : ProcCfg) (r : GrokResp) : Option String :=
  if r.toolUsageCardId then
    match r.webSearchResults with
    | some results =>
      if r.isThinking then
        if cfg.showThinking then some (appendSearch r.token results)
        else none
      else none
    | none => none
  else some r.token

/-- The `process_stream` loop: timeout check at the top of every
iteration (one terminal "stop" delta plus the end marker on violation,
nothing further read); empty lines, decode failures and per-frame
processing errors skipped; vendor error envelopes terminal; otherwise
the video / image / conversation translation with the reasoning
delimiter state machine.  Stream exhaustion yields the normal stop +
done pair, and an exception out of the transport iterator itself is the
outer `except` path: one generic processing-error delta plus done. -/
def processFrames (cfg : ProcCfg) (ending : StreamEnd) :
    StreamState → List (Nat × Frame) → List OutItem
  | _, [] =>
    match ending with
    | .eof => [.chunk "" (some "stop"), .done]
    | .raiseErr msg => [.chunk ("Process error: " ++ msg) (some "error"), .done]
  | st, (now, f) :: rest =>
    if (check_timeout st.tm now).1 then [.chunk "" (some "stop"), .done]
    else
      match f with
      | .empty => processFrames cfg ending st rest
      | .malformed => processFrames cfg ending st rest
      | .badObject => processFrames cfg ending st rest
      | .errorFrame msg => [.chunk ("Error: " ++ msg) (some "stop"), .done]
      | .noResp => processFrames cfg ending st rest
      | .payload r =>
        let st1 : StreamState := { st with tm := mark_received st.tm now }
        let st2 : StreamState :=
          match r.userModel with
          | some m => if m ≠ "" then { st1 with model := some m } else st1
          | none => st1
        match r.video with
        | some v =>
          let pr :=
            if st2.lastVideoProgress < v.progress then
              let stP := { st2 with lastVideoProgress := v.progress }
              if cfg.showThinking then
                if ¬ stP.videoProgressStarted then
                  ({ stP with videoProgressStarted := true },
                   [OutItem.chunk
                      ("<think>Video generated " ++ toString v.progress ++ "%\n") none])
                else if v.progress < 100 then
                  (stP,
                   [OutItem.chunk
                      ("Video generated " ++ toString v.progress ++ "%\n") none])
                else
                  (stP,
                   [OutItem.chunk
                      ("Video generated " ++ toString v.progress ++ "%</think>\n") none])
              else (stP, ([] : List OutItem))
            else (st2, ([] : List OutItem))
          let out2 : List OutItem :=
            match v.videoUrl with
            | some u =>
              if u ≠ "" then [OutItem.chunk (build_video_content cfg u) none] else []
            | none => []
          pr.2 ++ out2 ++ processFrames cfg ending pr.1 rest
        | none =>
          let st3 := if r.imageAttachmentInfo then { st2 with isImage := true } else st2
          if st3.isImage then
            match r.modelImages with
            | some imgs =>
              let res := imageLoop cfg imgs ""
              res.2 ++ [OutItem.chunk (pyStrip res.1) (some "stop")]
            | none =>
              if r.tokenIsList then
                processFrames cfg ending st3 rest
              else if r.token ≠ "" then
                OutItem.chunk r.token none :: processFrames cfg ending st3 rest
              else
                processFrames cfg ending st3 rest
          else
            if r.tokenIsList then processFrames cfg ending st3 rest
            else if r.token ≠ ""
                ∧ cfg.filteredTags.any (fun tag => strContains r.token tag) then
              processFrames cfg ending st3 rest
            else if st3.thinkingFinished ∧ r.isThinking then
              processFrames cfg ending st3 rest
            else
              match searchAdjust cfg r with
              | none => processFrames cfg ending st3 rest
              | some tok =>
                if tok ≠ "" then
                  let content0 :=
                    if r.messageTag = some "header" then "\n\n" ++ tok ++ "\n\n"
                    else tok
                  let cur := r.isThinking
                  let st4 := { st3 with isThinking := cur }
                  if ¬ st3.isThinking ∧ cur then
                    if cfg.showThinking then
                      OutItem.chunk ("<think>\n" ++ content0) none
                        :: processFrames cfg ending st4 rest
                    else processFrames cfg ending st4 rest
                  else if st3.isThinking ∧ ¬ cur then
                    let st5 := { st4 with thinkingFinished := true }
                    if cfg.showThinking then
                      OutItem.chunk ("\n</think>\n" ++ content0) none
                        :: processFrames cfg ending st5 rest
                    else
                      OutItem.chunk content0 none :: processFrames cfg ending st5 rest
                  else if cur then
                    if ¬ cfg.showThinking = true then processFrames cfg ending st4 rest
                    else OutItem.chunk content0 none :: processFrames cfg ending st4 rest
                  else
                    OutItem.chunk content0 none :: processFrames cfg ending st4 rest
                else processFrames cfg ending st3 rest

/-- Default timeout-manager state at stream start (`stream_chunk_timeout`
120, `stream_first_response_timeout` 30, `stream_total_timeout` 600),
clock at 0. -/
def freshTm : TimeoutState :=
  { chunkTimeout := 120
    firstTimeout := 30
    totalTimeout := 600
    startTime := 0
    lastChunkTime := 0
    firstReceived := false }

/-- The loop's initial local state. -/
def freshStream : StreamState :=
  { isImage := false
    isThinking := false
    thinkingFinished := false
    model := none
    videoProgressStarted := false
    lastVideoProgress := -1
    tm := freshTm }

/-- A plain configuration for concrete runs. -/
def cfgW : ProcCfg :=
  { filteredTags := ["xxfiltered"]
    showThinking := true
    imageMode := "url"
    baseUrl := ""
    imgBase64 := fun _ => .nofile
    imgFetch := fun _ => true
    videoCache := fun _ => false }

/-- A plain conversation frame carrying the token "hi". -/
def hiFrame : GrokResp :=
  { userModel := none
    video := none
    imageAttachmentInfo := false
    modelImages := none
    token := "hi"
    tokenIsList := false
    isThinking := false
    messageTag := none
    toolUsageCardId := false
    webSearchResults := none }

/-! Section: Lemmas relating the source selection to the spec selection -/

theorem collectCands_eq (field : String) (toks : List (String × TokenRec)) :
    collectCands field toks =
      ((unusedOf field toks).map Prod.fst,
       (meteredOf field toks).map (fun p => (p.1, getField field p.2))) := by
  induction toks with
  | nil => simp [collectCands, unusedOf, meteredOf]
  | cons p rest ih =>
    obtain ⟨k, r⟩ := p
    by_cases hexp : r.status = "expired"
    · simp [collectCands, ih, unusedOf, meteredOf, List.filter_cons, candOK, hexp]
    · by_cases hfc : MAX_FAILURES ≤ r.failedCount
      · have h3 : ¬ r.failedCount < 3 := by
          simpa [MAX_FAILURES] using hfc
        simp [collectCands, ih, unusedOf, meteredOf, List.filter_cons, candOK, hexp, hfc, h3]
      · have h3 : r.failedCount < 3 := by
          simpa [MAX_FAILURES] using hfc
        by_cases h0 : getField field r = 0
        · simp [collectCands, ih, unusedOf, meteredOf, List.filter_cons, candOK,
            hexp, hfc, h3, h0]
        · by_cases hm1 : getField field r = -1
          · simp [collectCands, ih, unusedOf, meteredOf, List.filter_cons, candOK,
              hexp, hfc, h3, h0, hm1]
          · by_cases hpos : 0 < getField field r
            · simp [collectCands, ih, unusedOf, meteredOf, List.filter_cons, candOK,
                hexp, hfc, h3, h0, hm1, hpos]
            · simp [collectCands, ih, unusedOf, meteredOf, List.filter_cons, candOK,
                hexp, hfc, h3, h0, hm1, hpos]

theorem pickMax_eq_none {l : List (String × Int)} : pickMax l = none ↔ l = [] := by
  cases l with
  | nil => simp [pickMax]
  | cons p rest =>
    obtain ⟨k, q⟩ := p
    simp only [pickMax]
    constructor
    · intro h
      cases hr : pickMax rest with
      | none => rw [hr] at h; exact absurd h (by simp)
      | some p2 =>
        obtain ⟨k2, q2⟩ := p2
        rw [hr] at h
        by_cases hlt : q < q2 <;> simp [hlt] at h
    · intro h; exact absurd h (by simp)

theorem pickMax_val {l : List (String × Int)} {k : String} {q : Int}
    (h : pickMax l = some (k, q)) :
    maxQuota (l.map (fun p => p.2)) = some q := by
  induction l generalizing k q with
  | nil => simp [pickMax] at h
  | cons p rest ih =>
    obtain ⟨k1, q1⟩ := p
    simp only [pickMax] at h
    cases hr : pickMax rest with
    | none =>
      rw [hr] at h
      have hrest : rest = [] := pickMax_eq_none.mp hr
      subst hrest
      simp only [Option.some.injEq, Prod.mk.injEq] at h
      simp [maxQuota, h.2]
    | some p2 =>
      obtain ⟨k2, q2⟩ := p2
      simp only [hr] at h
      have hm := ih hr
      simp only [List.map_cons, maxQuota, hm]
      by_cases hlt : q1 < q2
      · rw [if_pos hlt] at h
        simp only [Option.some.injEq, Prod.mk.injEq] at h
        rw [← h.2]
        simp [max_eq_right hlt.le]
      · rw [if_neg hlt] at h
        simp only [Option.some.injEq, Prod.mk.injEq] at h
        rw [← h.2]
        simp [max_eq_left (le_of_not_lt hlt)]

theorem pickMax_mem {l : List (String × Int)} {p : String × Int}
    (h : pickMax l = some p) : p ∈ l := by
  induction l generalizing p with
  | nil => simp [pickMax] at h
  | cons hd rest ih =>
    obtain ⟨k1, q1⟩ := hd
    simp only [pickMax] at h
    cases hr : pickMax rest with
    | none => rw [hr] at h; simp at h; simp [h]
    | some p2 =>
      obtain ⟨k2, q2⟩ := p2
      simp only [hr] at h
      by_cases hlt : q1 < q2
      · rw [if_pos hlt] at h
        simp only [Option.some.injEq] at h
        exact List.mem_cons_of_mem _ (h ▸ ih hr)
      · rw [if_neg hlt] at h
        simp only [Option.some.injEq] at h
        simp [← h]

theorem pickMax_fst (l : List (String × Int)) :
    (pickMax l).map Prod.fst =
      match maxQuota (l.map (fun p => p.2)) with
      | none => none
      | some m => (l.find? (fun p => p.2 == m)).map (fun p => p.1) := by
  induction l with
  | nil => simp [pickMax, maxQuota]
  | cons hd rest ih =>
    obtain ⟨k1, q1⟩ := hd
    cases hr : pickMax rest with
    | none =>
      have hrest : rest = [] := pickMax_eq_none.mp hr
      subst hrest
      simp [pickMax, maxQuota, List.find?]
    | some p2 =>
      obtain ⟨k2, q2⟩ := p2
      have hm : maxQuota (rest.map (fun p => p.2)) = some q2 := pickMax_val hr
      rw [hr] at ih
      rw [hm] at ih
      simp only [pickMax, hr, List.map_cons, maxQuota, hm]
      by_cases hlt : q1 < q2
      · have hmax : max q1 q2 = q2 := max_eq_right hlt.le
        have hne : (q1 == q2) = false := by
          simp [hlt.ne]
        rw [if_pos hlt, hmax]
        simp only [List.find?, hne]
        exact ih
      · have hmax : max q1 q2 = q1 := max_eq_left (le_of_not_lt hlt)
        rw [if_neg hlt, hmax]
        simp [List.find?]

theorem select_best_fst (toks : List (String × TokenRec)) (field : String) :
    (select_best toks field).map Prod.fst = specSelectBest toks field := by
  unfold select_best specSelectBest
  rw [collectCands_eq]
  cases hu : unusedOf field toks with
  | nil =>
    simp only [hu, List.map_nil]
    rw [pickMax_fst]
  | cons p rest => simp [hu]

theorem select_best_none_iff (toks : List (String × TokenRec)) (field : String) :
    select_best toks field = none ↔ specSelectBest toks field = none := by
  rw [← select_best_fst]
  simp [Option.map_eq_none']

theorem select_best_some {toks : List (String × TokenRec)} {field : String}
    {k : String} {q : Int} (h : select_best toks field = some (k, q)) :
    specSelectBest toks field = some k := by
  rw [← select_best_fst, h]
  rfl

/-- Any key produced by `select_best` belongs to the partition and its
record passed the exclusion filter (not expired, failure count below
threshold). -/
theorem select_best_candOK {toks : List (String × TokenRec)} {field : String}
    {k : String} {q : Int} (h : select_best toks field = some (k, q)) :
    ∃ r, (k, r) ∈ toks ∧ candOK r = true := by
  unfold select_best at h
  rw [collectCands_eq] at h
  cases hu : unusedOf field toks with
  | cons p rest =>
    rw [hu] at h
    simp only [List.map_cons, Option.some.injEq, Prod.mk.injEq] at h
    have hp : p ∈ unusedOf field toks := by rw [hu]; exact List.mem_cons_self _ _
    have := List.mem_filter.mp hp
    refine ⟨p.2, ?_, ?_⟩
    · rw [← h.1, Prod.mk.eta]; exact this.1
    · have hb := this.2
      simp only [Bool.and_eq_true] at hb
      exact hb.1
  | nil =>
    rw [hu] at h
    simp only [List.map_nil] at h
    have hmem := pickMax_mem h
    simp only [List.mem_map] at hmem
    obtain ⟨p, hp, hpe⟩ := hmem
    have hflt := List.mem_filter.mp hp
    have hk : p.1 = k := congrArg Prod.fst hpe
    refine ⟨p.2, ?_, ?_⟩
    · rw [← hk, Prod.mk.eta]; exact hflt.1
    · have hb := hflt.2
      simp only [Bool.and_eq_true] at hb
      exact hb.1

/-- Claim C1: For every pool state and requested model, `select_token`
excludes every credential that is expired, has `failedCount >= 3`, or
whose relevant remaining-quota field is 0; among the remaining
candidates it returns an unused one (quota == -1) by iteration order if
any exists, otherwise the metered candidate (quota > 0) of strictly
greatest remaining quota with ties broken by iteration order; heavy
tier draws only from the premium partition, standard tier falls back to
premium, and exhaustion yields the no-available-credential error.  All
of this is stated as: the source selection (`select_token`, translated
from token.py) coincides with the spec-side selection (`acquire`,
written from the spec's words via `unusedOf` / `meteredOf` /
`maxQuota`). -/
theorem c1_select_token_refines_acquire (pool : TokenPool) (model : String) :
    select_token pool model = acquire pool model := by
  unfold select_token acquire
  by_cases hm : model = "grok-4-heavy"
  · rw [if_pos hm, if_pos hm]
    cases hb : select_best pool.superT "heavyremainingQueries" with
    | none => rw [(select_best_none_iff _ _).mp hb]
    | some p =>
      obtain ⟨k, q⟩ := p
      rw [select_best_some hb]
  · rw [if_neg hm, if_neg hm]
    cases hb : select_best pool.normal "remainingQueries" with
    | none =>
      rw [(select_best_none_iff _ _).mp hb]
      cases hb2 : select_best pool.superT "remainingQueries" with
      | none => rw [(select_best_none_iff _ _).mp hb2]
      | some p =>
        obtain ⟨k, q⟩ := p
        rw [select_best_some hb2]
    | some p =>
      obtain ⟨k, q⟩ := p
      rw [select_best_some hb]

/-! Section: C2: expiry is set at the threshold and is absorbing -/

theorem select_token_ok_source {pool : TokenPool} {model k : String}
    (h : select_token pool model = .ok k) :
    (∃ q, select_best pool.superT "heavyremainingQueries" = some (k, q))
    ∨ (∃ q, select_best pool.normal "remainingQueries" = some (k, q))
    ∨ (∃ q, select_best pool.superT "remainingQueries" = some (k, q)) := by
  unfold select_token at h
  by_cases hm : model = "grok-4-heavy"
  · rw [if_pos hm] at h
    cases hb : select_best pool.superT "heavyremainingQueries" with
    | none => rw [hb] at h; exact absurd h (by simp)
    | some p =>
      obtain ⟨k1, q⟩ := p
      rw [hb] at h
      simp only [Except.ok.injEq] at h
      exact Or.inl ⟨q, by rw [h]⟩
  · rw [if_neg hm] at h
    cases hb : select_best pool.normal "remainingQueries" with
    | some p =>
      obtain ⟨k1, q⟩ := p
      rw [hb] at h
      simp only [Except.ok.injEq] at h
      exact Or.inr (Or.inl ⟨q, by rw [h]⟩)
    | none =>
      rw [hb] at h
      cases hb2 : select_best pool.superT "remainingQueries" with
      | none => rw [hb2] at h; exact absurd h (by simp)
      | some p =>
        obtain ⟨k1, q⟩ := p
        rw [hb2] at h
        simp only [Except.ok.injEq] at h
        exact Or.inr (Or.inr ⟨q, by rw [h]⟩)

/-- Claim C2: A failure recording with a 4xx status that actually brings
`failedCount` to ≥ 3 (i.e. the call incremented the count and the
result is ≥ 3) marks the record `expired`; an expired record stays
expired under both failure recording and success recording; and an
expired credential can never be returned by `select_token`, whatever
its quota. -/
theorem c2_expiry_absorbing (r : TokenRec) (status : Int) (msg : String)
    (now : Int) (pool : TokenPool) (model k : String) :
    (400 ≤ status → status < 500 →
      (record_failure_step r status msg now).failedCount = r.failedCount + 1 →
      3 ≤ (record_failure_step r status msg now).failedCount →
      (record_failure_step r status msg now).status = "expired")
    ∧ (r.status = "expired" →
        (record_failure_step r status msg now).status = "expired"
        ∧ (reset_failure_step r).status = "expired")
    ∧ ((∀ rec : TokenRec,
          ((k, rec) ∈ pool.normal ∨ (k, rec) ∈ pool.superT) →
          rec.status = "expired") →
        select_token pool model ≠ .ok k) := by
  refine ⟨?_, ?_, ?_⟩
  · intro h4 h5 hinc h3
    unfold record_failure_step at hinc h3 ⊢
    by_cases h403 : status = STATSIG_INVALID
    · rw [if_pos h403] at hinc
      omega
    · rw [if_neg h403] at h3 ⊢
      unfold applyFailure at h3 ⊢
      by_cases hc : 400 ≤ status ∧ status < 500 ∧ MAX_FAILURES ≤ r.failedCount + 1
      · rw [if_pos hc]
      · rw [if_neg hc] at h3
        simp only [MAX_FAILURES] at hc
        exact absurd ⟨h4, h5, by simpa using h3⟩ hc
  · intro hexp
    constructor
    · unfold record_failure_step
      split
      · exact hexp
      · simp only [applyFailure]
        split
        · rfl
        · exact hexp
    · unfold reset_failure_step
      split
      · exact hexp
      · exact hexp
  · intro hall heq
    rcases select_token_ok_source heq with ⟨q, hb⟩ | ⟨q, hb⟩ | ⟨q, hb⟩
    · obtain ⟨rec, hmem, hok⟩ := select_best_candOK hb
      have hexp := hall rec (Or.inr hmem)
      simp only [candOK, decide_eq_true_eq] at hok
      exact hok.1 hexp
    · obtain ⟨rec, hmem, hok⟩ := select_best_candOK hb
      have hexp := hall rec (Or.inl hmem)
      simp only [candOK, decide_eq_true_eq] at hok
      exact hok.1 hexp
    · obtain ⟨rec, hmem, hok⟩ := select_best_candOK hb
      have hexp := hall rec (Or.inr hmem)
      simp only [candOK, decide_eq_true_eq] at hok
      exact hok.1 hexp

theorem c2_witness :
    (record_failure_step c2Rec 401 "m" 7).status = "expired"
    ∧ select_token c2Pool "grok-3" ≠ .ok "a" := by
  have h := c2_expiry_absorbing c2Rec 401 "m" 7 c2Pool "grok-3" "a"
  refine ⟨h.1 (by decide) (by decide) (by decide) (by decide), h.2.2 ?_⟩
  intro rec hmem
  rcases hmem with hmem | hmem
  · simp only [c2Pool, List.mem_singleton, Prod.mk.injEq] at hmem
    rw [hmem.2]
    rfl
  · simp [c2Pool] at hmem

/-- Claim C6: `record_failure` with status 403 leaves the pool — and so
every record — entirely unchanged: no increment, no stamping, no
transition to expired. -/
theorem c6_403_never_penalizes (pool : TokenPool) (auth msg : String)
    (now : Int) (r : TokenRec) :
    record_failure pool auth 403 msg now = pool
    ∧ record_failure_step r 403 msg now = r := by
  constructor
  · unfold record_failure STATSIG_INVALID
    rw [if_pos rfl]
  · unfold record_failure_step STATSIG_INVALID
    rw [if_pos rfl]

/-- Claim C8 counterexample: `reset_failure` does *not* always clear
the failure metadata: on a record whose `failedCount` is already 0 the
guard `if data.get("failedCount", 0) > 0` skips the whole reset, so
stale `lastFailureTime`/`lastFailureReason` survive, contradicting the
claim's "whatever the record's prior failure state". -/
theorem c8_counterexample :
    reset_failure_step staleRec = staleRec
    ∧ (reset_failure_step staleRec).lastFailureTime = some 5
    ∧ (reset_failure_step staleRec).lastFailureReason = some "401: boom" := by
  refine ⟨rfl, rfl, rfl⟩

/-- Claim C8 amended: Recording a success always leaves
`failedCount == 0`; when the prior `failedCount` was positive it also
clears `lastFailureTime` and `lastFailureReason`; a record whose
`failedCount` is already 0 is left untouched (its metadata, null in
every state the manager itself produces, is not re-cleared). -/
theorem c8_reset_failure_amended (r : TokenRec) :
    (reset_failure_step r).failedCount = 0
    ∧ (0 < r.failedCount →
        (reset_failure_step r).lastFailureTime = none
        ∧ (reset_failure_step r).lastFailureReason = none)
    ∧ (r.failedCount = 0 → reset_failure_step r = r) := by
  unfold reset_failure_step
  by_cases h : 0 < r.failedCount
  · rw [if_pos h]
    exact ⟨rfl, fun _ => ⟨rfl, rfl⟩, fun h0 => absurd h0 (by omega)⟩
  · rw [if_neg h]
    exact ⟨by omega, fun hp => absurd hp h, fun _ => rfl⟩

theorem c8_witness :
    (reset_failure_step failedThriceRec).failedCount = 0
    ∧ (reset_failure_step failedThriceRec).lastFailureTime = none := by
  have h := c8_reset_failure_amended failedThriceRec
  exact ⟨h.1, (h.2.1 (by decide)).1⟩

/-! Section: C10: re-adding a secret overwrites its record -/

theorem getPart_setPart (pool : TokenPool) (tt : TokenType)
    (l : List (String × TokenRec)) : getPart (setPart pool tt l) tt = l := by
  cases tt <;> rfl

theorem lookupKey_setKey (l : List (String × TokenRec)) (k : String) (v : TokenRec) :
    lookupKey (setKey l k v) k = some v := by
  induction l with
  | nil => simp [setKey, lookupKey]
  | cons p rest ih =>
    obtain ⟨k1, v1⟩ := p
    by_cases h : k1 = k
    · simp [setKey, lookupKey, h]
    · simp [setKey, lookupKey, h, ih]

/-- Claim C10 counterexample: The claim quantifies over every non-empty
secret, but `add_token` skips any secret that is whitespace-only
(`not token.strip()`): re-adding the non-empty secret `" "` leaves its
existing record — expired, with accumulated failures — fully intact
instead of overwriting it with a fresh default record. -/
theorem c10_counterexample :
    add_token blankKeyPool [" "] .normal 99 = blankKeyPool
    ∧ lookupKey (add_token blankKeyPool [" "] .normal 99).normal " " = some blankKeyRec
    ∧ blankKeyRec ≠ defaultRecord 99 := by
  refine ⟨by decide, by decide, by decide⟩

/-- Claim C10 amended: For every secret that is non-blank (non-empty
after stripping whitespace, the source's guard), `add_token` overwrites
whatever record the partition held with a fresh default record
(`failedCount` 0, status "active", both quota fields -1, empty tags and
note) — silently discarding any accumulated failure count, expired
status, quota, tags and note; the re-added credential is selectable
again (a pool holding just that record yields it). -/
theorem c10_add_token_overwrites (pool : TokenPool) (tok : String)
    (tt : TokenType) (now : Int) (hne : pyStrip tok ≠ "") :
    lookupKey (getPart (add_token pool [tok] tt now) tt) tok
      = some (defaultRecord now)
    ∧ select_token { normal := [(tok, defaultRecord now)], superT := [] } "grok-3"
      = .ok tok := by
  constructor
  · have htok : ¬ (tok = "" ∨ pyStrip tok = "") := by
      rintro (h | h)
      · exact hne (by rw [h]; rfl)
      · exact hne h
    simp only [add_token, List.foldl_cons, List.foldl_nil, if_neg htok]
    rw [getPart_setPart, lookupKey_setKey]
  · have h1 : ¬ ("grok-3" : String) = "grok-4-heavy" := by decide
    unfold select_token
    rw [if_neg h1]
    have h2 : select_best [(tok, defaultRecord now)] "remainingQueries"
        = some (tok, -1) := by
      unfold select_best collectCands
      simp [defaultRecord, getField, MAX_FAILURES, collectCands]
    rw [h2]

theorem c10_witness :
    lookupKey (getPart (add_token blankKeyPool ["abc"] .normal 5) .normal) "abc"
      = some (defaultRecord 5)
    ∧ select_token { normal := [("abc", defaultRecord 5)], superT := [] } "grok-3"
      = .ok "abc" :=
  c10_add_token_overwrites blankKeyPool "abc" .normal 5 (by decide)

/-! Section: Strip and prefix lemmas -/

theorem dropWhile_head_false {p : Char → Bool} {l l' : List Char} {a : Char}
    (h : List.dropWhile p l = a :: l') : p a = false := by
  induction l with
  | nil => simp at h
  | cons x xs ih =>
    rw [List.dropWhile_cons] at h
    by_cases hx : p x
    · rw [if_pos hx] at h
      exact ih h
    · rw [if_neg hx] at h
      injection h with h1 h2
      rw [← h1]
      simpa using hx

theorem dropWhile_noop_head {p : Char → Bool} {a : Char} {l : List Char}
    (h : List.dropWhile p (a :: l) = a :: l) : p a = false :=
  dropWhile_head_false h

theorem dropWhile_noop_cons {p : Char → Bool} {a : Char} {l : List Char}
    (h : p a = false) : List.dropWhile p (a :: l) = a :: l := by
  rw [List.dropWhile_cons, h]
  simp

theorem dropWhile_idem (p : Char → Bool) (l : List Char) :
    List.dropWhile p (List.dropWhile p l) = List.dropWhile p l := by
  cases hd : List.dropWhile p l with
  | nil => simp
  | cons a l' => exact dropWhile_noop_cons (dropWhile_head_false hd)

theorem pyStripL_right_noop (l : List Char) :
    (pyStripL l).reverse.dropWhile isPySpace = (pyStripL l).reverse := by
  unfold pyStripL
  rw [List.reverse_reverse]
  exact dropWhile_idem _ _

theorem pyStripL_left_noop (l : List Char) :
    (pyStripL l).dropWhile isPySpace = pyStripL l := by
  unfold pyStripL
  cases hm : (List.dropWhile isPySpace (List.dropWhile isPySpace l).reverse).reverse with
  | nil => simp
  | cons a t =>
    have hd1eq : List.dropWhile isPySpace l
        = (List.dropWhile isPySpace (List.dropWhile isPySpace l).reverse).reverse
          ++ (List.takeWhile isPySpace (List.dropWhile isPySpace l).reverse).reverse := by
      conv_lhs => rw [← List.reverse_reverse (List.dropWhile isPySpace l),
        ← List.takeWhile_append_dropWhile isPySpace (List.dropWhile isPySpace l).reverse]
      rw [List.reverse_append]
    rw [hm, List.cons_append] at hd1eq
    have ha : isPySpace a = false := dropWhile_head_false hd1eq
    exact dropWhile_noop_cons ha

theorem pyStripL_idem (l : List Char) : pyStripL (pyStripL l) = pyStripL l := by
  calc pyStripL (pyStripL l)
      = (((pyStripL l).dropWhile isPySpace).reverse.dropWhile isPySpace).reverse := rfl
    _ = ((pyStripL l).reverse.dropWhile isPySpace).reverse := by rw [pyStripL_left_noop]
    _ = (pyStripL l).reverse.reverse := by rw [pyStripL_right_noop]
    _ = pyStripL l := List.reverse_reverse _

theorem stripTrail_pyStripL (l : List Char) :
    stripTrail (pyStripL l) = pyStripL l := by
  unfold stripTrail
  rw [pyStripL_right_noop, List.reverse_reverse]

theorem stripTrail_drop {m : List Char} (k : Nat) (h : stripTrail m = m) :
    stripTrail (m.drop k) = m.drop k := by
  unfold stripTrail at h ⊢
  cases hs : (m.drop k).reverse with
  | nil =>
    have hnil : m.drop k = [] := by
      have := congrArg List.reverse hs
      simpa using this
    simp [hnil]
  | cons a t2 =>
    have hm : m.reverse = a :: (t2 ++ (m.take k).reverse) := by
      conv_lhs => rw [← List.take_append_drop k m]
      rw [List.reverse_append, hs, List.cons_append]
    have h' : List.dropWhile isPySpace m.reverse = m.reverse := by
      have := congrArg List.reverse h
      simpa [List.reverse_reverse] using this
    rw [hm] at h'
    have ha := dropWhile_noop_head h'
    rw [dropWhile_noop_cons ha]
    have := congrArg List.reverse hs
    rw [List.reverse_reverse] at this
    rw [this]

theorem pyStripL_prefix_noop (pre t : List Char)
    (hh : pre.dropWhile isPySpace = pre)
    (hr : pre.reverse.dropWhile isPySpace = pre.reverse)
    (hne : pre ≠ []) :
    pyStripL (pre ++ t) = pre ++ stripTrail t := by
  unfold pyStripL stripTrail
  have h1 : List.dropWhile isPySpace (pre ++ t) = pre ++ t := by
    rw [List.dropWhile_append, hh]
    simp [List.isEmpty_iff, hne]
  rw [h1, List.reverse_append, List.dropWhile_append]
  by_cases he : (List.dropWhile isPySpace t.reverse).isEmpty
  · rw [if_pos he, hr]
    have ht : List.dropWhile isPySpace t.reverse = [] := by
      simpa [List.isEmpty_iff] using he
    rw [ht]
    simp
  · rw [if_neg he, List.reverse_append]
    simp

theorem sock5h_notPre_socks5h (t : List Char) :
    sock5hPre.isPrefixOf (socks5hPre ++ t) = false := by
  simp [sock5hPre, socks5hPre, List.cons_prefix_cons, List.isPrefixOf]

theorem sock5_notPre_socks5h (t : List Char) :
    sock5Pre.isPrefixOf (socks5hPre ++ t) = false := by
  simp [sock5Pre, socks5hPre, List.cons_prefix_cons, List.isPrefixOf]

theorem socks5_notPre_socks5h (t : List Char) :
    socks5Pre.isPrefixOf (socks5hPre ++ t) = false := by
  simp [socks5Pre, socks5hPre, List.cons_prefix_cons, List.isPrefixOf]

theorem sock5h_notPre_sock5 (t : List Char) :
    sock5hPre.isPrefixOf (sock5Pre ++ t) = false := by
  simp [sock5hPre, sock5Pre, List.cons_prefix_cons, List.isPrefixOf]

theorem sock5h_notPre_socks5 (t : List Char) :
    sock5hPre.isPrefixOf (socks5Pre ++ t) = false := by
  simp [sock5hPre, socks5Pre, List.cons_prefix_cons, List.isPrefixOf]

theorem sock5_notPre_socks5 (t : List Char) :
    sock5Pre.isPrefixOf (socks5Pre ++ t) = false := by
  simp [sock5Pre, socks5Pre, List.cons_prefix_cons, List.isPrefixOf]

theorem pre_isPre_self_append (pre t : List Char) :
    pre.isPrefixOf (pre ++ t) = true := by
  simp [List.isPrefixOf_iff_prefix]

theorem replacePre_append (pre repl t : List Char) :
    replacePre pre repl (pre ++ t) = repl ++ t := by
  simp [replacePre, List.drop_left]

/-- What `normStep1` does on a `socks5h://`-prefixed value: nothing. -/
theorem normStep1_socks5h (s : List Char) :
    normStep1 (socks5hPre ++ s) = socks5hPre ++ s := by
  unfold normStep1 normStep2 normStep3
  rw [sock5h_notPre_socks5h]
  simp only [Bool.false_eq_true, if_false]
  rw [sock5_notPre_socks5h]
  simp only [Bool.false_eq_true, if_false]
  rw [socks5_notPre_socks5h]
  simp only [Bool.false_eq_true, if_false]

/-- The three alias spellings all canonicalize to `socks5h://`. -/
theorem normStep1_sock5h (s : List Char) :
    normStep1 (sock5hPre ++ s) = socks5hPre ++ s := by
  unfold normStep1
  rw [pre_isPre_self_append]
  simp only [if_true]
  rw [replacePre_append]
  have h := normStep1_socks5h s
  unfold normStep1 at h
  exact h

theorem normStep1_sock5 (s : List Char) :
    normStep1 (sock5Pre ++ s) = socks5hPre ++ s := by
  unfold normStep1 normStep2
  rw [sock5h_notPre_sock5]
  simp only [Bool.false_eq_true, if_false]
  rw [pre_isPre_self_append]
  simp only [if_true]
  rw [replacePre_append]
  unfold normStep3
  rw [pre_isPre_self_append]
  simp only [if_true]
  rw [replacePre_append]

theorem normStep1_socks5 (s : List Char) :
    normStep1 (socks5Pre ++ s) = socks5hPre ++ s := by
  unfold normStep1 normStep2 normStep3
  rw [sock5h_notPre_socks5]
  simp only [Bool.false_eq_true, if_false]
  rw [sock5_notPre_socks5]
  simp only [Bool.false_eq_true, if_false]
  rw [pre_isPre_self_append]
  simp only [if_true]
  rw [replacePre_append]

/-- Source `normStep1` either rewrites to a canonical `socks5h://`-headed
value (with the tail a suffix of the input) or leaves the value
unchanged with none of the three alias prefixes present. -/
theorem normStep1_shape (m : List Char) :
    (∃ k, normStep1 m = socks5hPre ++ m.drop k)
    ∨ (normStep1 m = m
       ∧ sock5hPre.isPrefixOf m = false
       ∧ sock5Pre.isPrefixOf m = false
       ∧ socks5Pre.isPrefixOf m = false) := by
  by_cases h1 : sock5hPre.isPrefixOf m = true
  · obtain ⟨t, ht⟩ := List.isPrefixOf_iff_prefix.mp h1
    left
    refine ⟨sock5hPre.length, ?_⟩
    rw [← ht, List.drop_left, normStep1_sock5h]
  · by_cases h2 : sock5Pre.isPrefixOf m = true
    · obtain ⟨t, ht⟩ := List.isPrefixOf_iff_prefix.mp h2
      left
      refine ⟨sock5Pre.length, ?_⟩
      rw [← ht, List.drop_left, normStep1_sock5]
    · by_cases h3 : socks5Pre.isPrefixOf m = true
      · obtain ⟨t, ht⟩ := List.isPrefixOf_iff_prefix.mp h3
        left
        refine ⟨socks5Pre.length, ?_⟩
        rw [← ht, List.drop_left, normStep1_socks5]
      · right
        refine ⟨?_, by simpa only [Bool.not_eq_true] using h1,
          by simpa only [Bool.not_eq_true] using h2,
          by simpa only [Bool.not_eq_true] using h3⟩
        unfold normStep1 normStep2 normStep3
        rw [if_neg h1, if_neg h2, if_neg h3]

theorem normalize_sock5h (t : List Char) :
    normalize_proxy (sock5hPre ++ t) = socks5hPre ++ stripTrail t := by
  unfold normalize_proxy
  rw [if_neg (by simp [sock5hPre])]
  rw [pyStripL_prefix_noop sock5hPre t (by decide) (by decide) (by decide)]
  exact normStep1_sock5h _

theorem normalize_sock5 (t : List Char) :
    normalize_proxy (sock5Pre ++ t) = socks5hPre ++ stripTrail t := by
  unfold normalize_proxy
  rw [if_neg (by simp [sock5Pre])]
  rw [pyStripL_prefix_noop sock5Pre t (by decide) (by decide) (by decide)]
  exact normStep1_sock5 _

theorem normalize_socks5 (t : List Char) :
    normalize_proxy (socks5Pre ++ t) = socks5hPre ++ stripTrail t := by
  unfold normalize_proxy
  rw [if_neg (by simp [socks5Pre])]
  rw [pyStripL_prefix_noop socks5Pre t (by decide) (by decide) (by decide)]
  exact normStep1_socks5 _

theorem normalize_proxy_idempotent (p : List Char) :
    normalize_proxy (normalize_proxy p) = normalize_proxy p := by
  by_cases hp : p = []
  · subst hp; rfl
  · have hnp : normalize_proxy p = normStep1 (pyStripL p) := by
      unfold normalize_proxy
      rw [if_neg hp]
    rw [hnp]
    have hmm : pyStripL (pyStripL p) = pyStripL p := pyStripL_idem p
    have hmt : stripTrail (pyStripL p) = pyStripL p := stripTrail_pyStripL p
    rcases normStep1_shape (pyStripL p) with ⟨k, hk⟩ | ⟨hid, h1, h2, h3⟩
    · rw [hk]
      unfold normalize_proxy
      rw [if_neg (by simp [socks5hPre])]
      rw [pyStripL_prefix_noop socks5hPre ((pyStripL p).drop k)
        (by decide) (by decide) (by decide)]
      rw [stripTrail_drop k hmt]
      exact normStep1_socks5h _
    · rw [hid]
      unfold normalize_proxy
      by_cases hm0 : pyStripL p = []
      · rw [if_pos hm0]
      · rw [if_neg hm0, hmm]
        exact hid

theorem configure_rejects_pool_literal
    (st : ProxyPoolState) (purl ppurl : List Char) (i : Int)
    (hpp : ppurl ≠ [])
    (hlook : looks_like_proxy_url (pyStripL ppurl) = true) :
    (configure st purl ppurl i).poolUrl = none
    ∧ (configure st purl ppurl i).enabled = false
    ∧ (purl = [] →
        (configure st purl ppurl i).staticProxy
          = some (normalize_proxy (pyStripL ppurl)))
    ∧ (purl ≠ [] → normalize_proxy purl ≠ [] →
        (configure st purl ppurl i).staticProxy = some (normalize_proxy purl)) := by
  have hpu : pyStripL ppurl ≠ [] := by
    intro h0
    rw [h0] at hlook
    exact absurd hlook (by decide)
  have hpuE : (pyStripL ppurl).isEmpty = false := by
    simpa [List.isEmpty_iff] using hpu
  simp only [configure, optTruthy, hpp, hpuE, hlook]
  simp [configure, optTruthy, hpp, hpuE, hlook]
  constructor
  · intro h0 habs
    rw [if_pos h0] at habs
    simp at habs
  · intro hne hnn
    have hE : (normalize_proxy purl).isEmpty = false := by
      simpa [List.isEmpty_iff] using hnn
    rw [if_neg hne]
    simp [hE]

/-- Claim C9: `configure` rejects a pool-source value that itself looks
like a proxy literal (scheme sniffing): rotation is not enabled on it,
and it is used as the static proxy when none was supplied, or ignored
in favour of the supplied one.  Proxy normalization maps every socks5
spelling (`sock5h://`, `sock5://`, `socks5://`) to the canonical
`socks5h://`, and normalizing twice equals normalizing once. -/
theorem c9_configure_and_normalization
    (st : ProxyPoolState) (purl ppurl : List Char) (i : Int) (t p : List Char) :
    (ppurl ≠ [] → looks_like_proxy_url (pyStripL ppurl) = true →
      (configure st purl ppurl i).poolUrl = none
      ∧ (configure st purl ppurl i).enabled = false
      ∧ (purl = [] →
          (configure st purl ppurl i).staticProxy
            = some (normalize_proxy (pyStripL ppurl)))
      ∧ (purl ≠ [] → normalize_proxy purl ≠ [] →
          (configure st purl ppurl i).staticProxy = some (normalize_proxy purl)))
    ∧ normalize_proxy (sock5hPre ++ t) = socks5hPre ++ stripTrail t
    ∧ normalize_proxy (sock5Pre ++ t) = socks5hPre ++ stripTrail t
    ∧ normalize_proxy (socks5Pre ++ t) = socks5hPre ++ stripTrail t
    ∧ normalize_proxy (normalize_proxy p) = normalize_proxy p :=
  ⟨fun hpp hlook => configure_rejects_pool_literal st purl ppurl i hpp hlook,
   normalize_sock5h t, normalize_sock5 t, normalize_socks5 t,
   normalize_proxy_idempotent p⟩

theorem c9_witness :
    (configure proxyInit [] (socks5Pre ++ ['h','o','s','t']) 300).enabled = false
    ∧ (configure proxyInit [] (socks5Pre ++ ['h','o','s','t'])
        300).staticProxy = some (socks5hPre ++ ['h','o','s','t'])
    ∧ normalize_proxy (sock5Pre ++ ['h','o','s','t'])
        = socks5hPre ++ ['h','o','s','t'] := by
  have h := c9_configure_and_normalization proxyInit []
    (socks5Pre ++ ['h','o','s','t']) 300 ['h','o','s','t'] []
  have hrej := h.1 (by decide) (by decide)
  refine ⟨hrej.2.1, ?_, ?_⟩
  · rw [hrej.2.2.1 rfl]
    decide
  · rw [h.2.2.1]
    decide

theorem innerEvs_addEvs (pre : List Ev) (r : InnerRes) :
    innerEvs (addEvs pre r) = pre ++ innerEvs r := by
  cases r <;> rfl

theorem statusChecks_evs_count (codes : List Int) (o : Nat) (s : Int)
    (rest : List Int) (evs : List Ev) :
    (innerEvs (statusChecks codes o s rest evs)).count Ev.refresh
      = evs.count Ev.refresh := by
  unfold statusChecks
  split
  · split <;> simp [innerEvs, List.count_append]
  · split <;> simp [innerEvs, List.count_append]

theorem statusChecks_outerRetry {codes : List Int} {o : Nat} {s : Int}
    {rest0 : List Int} {evs : List Ev} {rest : List Int} {e : List Ev}
    (h : statusChecks codes o s rest0 evs = .outerRetry rest e) :
    rest = rest0 := by
  unfold statusChecks at h
  split at h
  · split at h
    · injection h with h1 h2
      exact h1.symm
    · simp at h
  · split at h <;> simp at h

theorem innerLoop_disabled_no_refresh (codes : List Int) (o : Nat) :
    ∀ (rs : List Int) (count : Nat),
    (innerEvs (innerLoop codes false o count rs)).count Ev.refresh = 0 := by
  intro rs
  induction rs with
  | nil => intro count; simp [innerLoop, innerEvs]
  | cons s tail ih =>
    intro count
    simp [innerLoop, statusChecks_evs_count]

theorem grokRequest_disabled_no_refresh (codes : List Int) :
    ∀ (fuel o : Nat) (rs : List Int),
    (outerLoop codes false fuel o rs).evs.count Ev.refresh = 0 := by
  intro fuel
  induction fuel with
  | zero => intro o rs; simp [outerLoop]
  | succ n ih =>
    intro o rs
    unfold outerLoop
    cases hin : innerLoop codes false o 0 rs with
    | success rest e =>
      have h := innerLoop_disabled_no_refresh codes o rs 0
      rw [hin] at h
      simpa [innerEvs] using h
    | failure s rest e =>
      have h := innerLoop_disabled_no_refresh codes o rs 0
      rw [hin] at h
      simpa [innerEvs] using h
    | noData e =>
      have h := innerLoop_disabled_no_refresh codes o rs 0
      rw [hin] at h
      simpa [innerEvs] using h
    | outerRetry rest e =>
      have h := innerLoop_disabled_no_refresh codes o rs 0
      rw [hin] at h
      simp only [innerEvs] at h
      simp [List.count_append, h, ih (o + 1) rest]

theorem innerLoop_no403 (codes : List Int) (en : Bool) (o : Nat)
    (rs : List Int) (h : (403 : Int) ∉ rs) :
    (innerEvs (innerLoop codes en o 0 rs)).count Ev.refresh = 0 := by
  cases rs with
  | nil => simp [innerLoop, innerEvs]
  | cons s tail =>
    have hs : s ≠ 403 := by
      intro he
      exact h (he ▸ List.mem_cons_self _ _)
    simp [innerLoop, hs, statusChecks_evs_count]

theorem innerLoop_outerRetry_suffix (codes : List Int) (en : Bool) (o : Nat) :
    ∀ (rs : List Int) (count : Nat) (rest : List Int) (e : List Ev),
    innerLoop codes en o count rs = .outerRetry rest e → rest <:+ rs := by
  intro rs
  induction rs with
  | nil =>
    intro count rest e h
    simp [innerLoop] at h
  | cons s tail ih =>
    intro count rest e h
    simp only [innerLoop] at h
    split at h
    · split at h
      · cases hr : innerLoop codes en o (count + 1) tail with
        | outerRetry r2 e2 =>
          rw [hr] at h
          simp only [addEvs, InnerRes.outerRetry.injEq] at h
          have hsfx := ih (count + 1) r2 e2 hr
          rw [← h.1]
          exact hsfx.trans (List.suffix_cons s tail)
        | success r2 e2 => rw [hr] at h; simp [addEvs] at h
        | failure s2 r2 e2 => rw [hr] at h; simp [addEvs] at h
        | noData e2 => rw [hr] at h; simp [addEvs] at h
      · have := statusChecks_outerRetry h
        rw [this]
        exact (List.suffix_cons s tail)
    · have := statusChecks_outerRetry h
      rw [this]
      exact (List.suffix_cons s tail)

theorem grokRequest_no403_no_refresh (codes : List Int) (en : Bool) :
    ∀ (fuel o : Nat) (rs : List Int), (403 : Int) ∉ rs →
    (outerLoop codes en fuel o rs).evs.count Ev.refresh = 0 := by
  intro fuel
  induction fuel with
  | zero => intro o rs _; simp [outerLoop]
  | succ n ih =>
    intro o rs hmem
    unfold outerLoop
    cases hin : innerLoop codes en o 0 rs with
    | success rest e =>
      have h := innerLoop_no403 codes en o rs hmem
      rw [hin] at h
      simpa [innerEvs] using h
    | failure s rest e =>
      have h := innerLoop_no403 codes en o rs hmem
      rw [hin] at h
      simpa [innerEvs] using h
    | noData e =>
      have h := innerLoop_no403 codes en o rs hmem
      rw [hin] at h
      simpa [innerEvs] using h
    | outerRetry rest e =>
      have h := innerLoop_no403 codes en o rs hmem
      rw [hin] at h
      simp only [innerEvs] at h
      have hrest : (403 : Int) ∉ rest := fun hx =>
        hmem ((innerLoop_outerRetry_suffix codes en o rs 0 rest e hin).subset hx)
      simp [List.count_append, h, ih (o + 1) rest hrest]

theorem innerLoop_refresh_le (codes : List Int) (en : Bool) (o : Nat) :
    ∀ (rs : List Int) (count : Nat), 1 ≤ count → count ≤ MAX_403_RETRIES →
    (innerEvs (innerLoop codes en o count rs)).count Ev.refresh
      ≤ MAX_403_RETRIES + 1 - count := by
  intro rs
  induction rs with
  | nil =>
    intro count h1 h5
    simp [innerLoop, innerEvs]
  | cons s tail ih =>
    intro count h1 h5
    simp only [innerLoop]
    by_cases hc : s = 403 ∧ en = true
    · rw [if_pos hc]
      by_cases hcnt : count + 1 ≤ MAX_403_RETRIES
      · rw [if_pos hcnt]
        rw [innerEvs_addEvs, List.count_append, List.count_append]
        have hrec := ih (count + 1) (by omega) hcnt
        have hevs0 : (if 0 < count ∧ en = true then [Ev.refresh] else []).count Ev.refresh ≤ 1 := by
          split <;> simp
        have hsleep : ([Ev.sleepMs 500].count Ev.refresh) = 0 := by decide
        simp only [MAX_403_RETRIES] at hrec h5 ⊢
        omega
      · rw [if_neg hcnt, statusChecks_evs_count]
        have hevs0 : (if 0 < count ∧ en = true then [Ev.refresh] else []).count Ev.refresh ≤ 1 := by
          split <;> simp
        simp only [MAX_403_RETRIES] at h5 ⊢
        omega
    · rw [if_neg hc, statusChecks_evs_count]
      have hevs0 : (if 0 < count ∧ en = true then [Ev.refresh] else []).count Ev.refresh ≤ 1 := by
        split <;> simp
      simp only [MAX_403_RETRIES] at h5 ⊢
      omega

theorem innerLoop_refresh_le5 (codes : List Int) (en : Bool) (o : Nat)
    (rs : List Int) :
    (innerEvs (innerLoop codes en o 0 rs)).count Ev.refresh
      ≤ MAX_403_RETRIES := by
  cases rs with
  | nil => simp [innerLoop, innerEvs]
  | cons s tail =>
    simp only [innerLoop]
    by_cases hc : s = 403 ∧ en = true
    · rw [if_pos hc]
      have hone : 0 + 1 ≤ MAX_403_RETRIES := by decide
      rw [if_pos hone]
      rw [innerEvs_addEvs, List.count_append, List.count_append]
      have hrec := innerLoop_refresh_le codes en o tail (0 + 1) (by decide) (by decide)
      have hevs0 : (if 0 < 0 ∧ en = true then [Ev.refresh] else []).count Ev.refresh = 0 := by
        simp
      have hsleep : ([Ev.sleepMs 500].count Ev.refresh) = 0 := by decide
      simp only [MAX_403_RETRIES] at hrec ⊢
      omega
    · rw [if_neg hc, statusChecks_evs_count]
      simp [MAX_403_RETRIES]

/-- Claim C3: With a rotating proxy pool enabled and upstream responses
[403, 403, 200], the logical call succeeds, `force_refresh` is invoked
exactly twice (once before each retry after a 403), a fixed 0.5 s
(500 ms) wait precedes each such retry, and no credential failure is
recorded for either 403 (the trace equality fixes the complete event
sequence).  Moreover the egress-rotation retry is triggered only on
403 with the pool enabled (no refresh when rotation is disabled, and
none when no 403 is observed), and one outer attempt performs at most
`MAX_403_RETRIES` = 5 extra rotation attempts. -/
theorem c3_rotation_retry (codes responses : List Int) (outerRetry : Nat)
    (enabled : Bool) :
    grokRequest [401, 429] true [403, 403, 200]
      = ⟨[.sleepMs 500, .refresh, .sleepMs 500, .refresh, .resetFail], .ok []⟩
    ∧ (grokRequest codes false responses).evs.count Ev.refresh = 0
    ∧ ((403 : Int) ∉ responses →
        (grokRequest codes enabled responses).evs.count Ev.refresh = 0)
    ∧ (innerEvs (innerLoop codes enabled outerRetry 0 responses)).count Ev.refresh
        ≤ MAX_403_RETRIES := by
  refine ⟨by decide, ?_, ?_, ?_⟩
  · exact grokRequest_disabled_no_refresh codes (MAX_OUTER_RETRY + 1) 0 responses
  · intro h
    exact grokRequest_no403_no_refresh codes enabled (MAX_OUTER_RETRY + 1) 0 responses h
  · exact innerLoop_refresh_le5 codes enabled outerRetry responses

theorem c3_witness :
    grokRequest [401, 429] true [403, 403, 200]
      = ⟨[.sleepMs 500, .refresh, .sleepMs 500, .refresh, .resetFail], .ok []⟩
    ∧ (grokRequest [401, 429] true [200, 200]).evs.count Ev.refresh = 0 := by
  have h := c3_rotation_retry [401, 429] [200, 200] 0 true
  exact ⟨h.1, h.2.2.1 (by decide)⟩

/-- Claim C4: With the default retryable set {401, 429} and upstream
responses [429, 429, 200], the call succeeds on the third outer attempt
after backoff delays of exactly 0.1 s (100 ms) then 0.2 s (200 ms) —
`delay = attempt × 0.1 s`; the outer retry performs at most 3 extra
attempts (4 total): after four retryable responses the terminal status
error is surfaced (a recorded failure and the raised HTTP error),
whatever responses would have followed. -/
theorem c4_outer_backoff (enabled : Bool) (rest : List Int) :
    grokRequest [401, 429] enabled [429, 429, 200]
      = ⟨[.sleepMs 100, .sleepMs 200, .resetFail], .ok []⟩
    ∧ grokRequest [401, 429] enabled (429 :: 429 :: 429 :: 429 :: rest)
      = ⟨[.sleepMs 100, .sleepMs 200, .sleepMs 300, .recordFail 429],
         .err 429 rest⟩ := by
  constructor
  · cases enabled <;> decide
  · cases enabled <;>
      simp [grokRequest, outerLoop, innerLoop, statusChecks, addEvs,
        MAX_OUTER_RETRY, MAX_403_RETRIES]

/-- Claim C5: Whenever any of the three stream deadlines is violated at a
frame arrival — no first frame within `first_timeout` of stream start,
total elapsed time beyond `total_timeout`, or no frame within
`chunk_timeout` of the last received frame — `check_timeout` fires and
the translator emits exactly one terminal delta with finish_reason
"stop" followed by exactly one `data: [DONE]` marker, emitting no
further deltas and reading no further frames (the result is independent
of the violating frame's content and of everything after it). -/
theorem c5_timeout_terminates_stream (cfg : ProcCfg) (ending : StreamEnd)
    (st : StreamState) (now : Nat) (f : Frame) (rest : List (Nat × Frame)) :
    ((¬ st.tm.firstReceived = true ∧ st.tm.firstTimeout < now - st.tm.startTime)
      ∨ (0 < st.tm.totalTimeout ∧ st.tm.totalTimeout < now - st.tm.startTime)
      ∨ (st.tm.firstReceived = true ∧ st.tm.chunkTimeout < now - st.tm.lastChunkTime)) →
    (check_timeout st.tm now).1 = true
    ∧ processFrames cfg ending st ((now, f) :: rest)
        = [.chunk "" (some "stop"), .done] := by
  intro h
  have hchk : (check_timeout st.tm now).1 = true := by
    unfold check_timeout
    split
    · rfl
    · split
      · rfl
      · split
        · rfl
        · rename_i hc1 hc2 hc3
          rcases h with h | h | h
          · exact absurd h hc1
          · exact absurd h hc2
          · exact absurd h hc3
  refine ⟨hchk, ?_⟩
  simp [processFrames, hchk]

theorem c5_witness :
    (check_timeout freshStream.tm 31).1 = true
    ∧ processFrames cfgW .eof freshStream [(31, .payload hiFrame), (32, .payload hiFrame)]
        = [.chunk "" (some "stop"), .done] :=
  c5_timeout_terminates_stream cfgW .eof freshStream 31 (.payload hiFrame)
    [(32, .payload hiFrame)] (Or.inl (by decide))

/-- Claim C7 counterexample: A frame whose processing raises a
non-decode error (valid JSON that is not an object, `Frame.badObject`)
does *not* abort the stream: the per-frame `except Exception: continue`
handler swallows it, the next frame's delta is still emitted, and no
generic processing-error delta appears — the output is the same as if
the bad frame had not been there. -/
theorem c7_counterexample :
    processFrames cfgW .eof freshStream
        [(1, .badObject), (2, .payload hiFrame)]
      = [.chunk "hi" none, .chunk "" (some "stop"), .done]
    ∧ processFrames cfgW .eof freshStream [(1, .badObject), (2, .payload hiFrame)]
      ≠ [.chunk "Process error: badObject" (some "error"), .done] := by
  constructor
  · decide
  · decide

/-- Claim C7 amended: While processing a streaming response, a frame
whose body is malformed JSON is logged and skipped and the stream
continues with the next frame; any other error raised while processing
a frame is likewise caught by the per-frame handler and skipped; only
an error raised by the underlying response iterator itself (outside the
per-frame try) aborts the stream with a single generic
processing-error delta followed by the end marker. -/
theorem c7_frame_errors_amended (cfg : ProcCfg) (ending : StreamEnd)
    (st : StreamState) (now : Nat) (rest : List (Nat × Frame)) (msg : String) :
    ((check_timeout st.tm now).1 = false →
      processFrames cfg ending st ((now, Frame.malformed) :: rest)
        = processFrames cfg ending st rest
      ∧ processFrames cfg ending st ((now, Frame.badObject) :: rest)
        = processFrames cfg ending st rest)
    ∧ processFrames cfg (StreamEnd.raiseErr msg) st []
        = [.chunk ("Process error: " ++ msg) (some "error"), .done] := by
  refine ⟨?_, rfl⟩
  intro h
  constructor <;> simp [processFrames, h]

theorem c7_witness :
    processFrames cfgW .eof freshStream [(1, Frame.malformed), (2, .payload hiFrame)]
      = processFrames cfgW .eof freshStream [(2, .payload hiFrame)]
    ∧ processFrames cfgW (StreamEnd.raiseErr "boom") freshStream []
      = [.chunk "Process error: boom" (some "error"), .done] := by
  have h := c7_frame_errors_amended cfgW .eof freshStream 1
    [(2, Frame.payload hiFrame)] "boom"
  have h2 := c7_frame_errors_amended cfgW (StreamEnd.raiseErr "boom") freshStream 1 [] "boom"
  exact ⟨(h.1 (by decide)).1, h2.2⟩

end DailyNews
